import Mathlib

/-!
Verification development for the torba wallet core (src/torba/baseaccount.py
and src/torba/basedatabase.py).

The Python source is shallowly embedded: the sqlite tables become Lean lists
of row structures, every multi-statement database interaction becomes a pure
function from table state to table state (an `Option` result models an
interaction that raises and is rolled back), and the Twisted deferreds are
dropped since each modelled operation runs to completion atomically through
the single-writer connection pool (cp_min=1, cp_max=1).
-/

/-! ## Key derivation facade

Modelled from the spec: the BIP32 facade (torba/bip32.py) is not under src/;
spec section 4.1 specifies `PublicKey.child(i)` derivation and a canonical,
injective `PublicKey.address` encoding.  A public key is represented by its
derivation path and the address encoding is an injective rendering of that
path. -/

structure PubKey where
  path : List Nat
deriving DecidableEq, Repr

def PubKey.child (k : PubKey) (i : Nat) : PubKey := ⟨k.path ++ [i]⟩

def PubKey.address (k : PubKey) : String :=
  "addr" ++ String.join (k.path.map (fun n => "/" ++ toString n))

/-! ## The pubkey_address table

One row of the `pubkey_address` table from BaseDatabase.CREATE_PUBKEY_ADDRESS_TABLE:
`(address, account, chain, position, pubkey, history, used_times)` where
`history` is NULL until first set and `used_times` defaults to 0. -/

structure AddressRow where
  address : String
  account : String
  chain : Nat
  position : Nat
  pubkey : PubKey
  history : Option String
  used_times : Nat
deriving DecidableEq, Repr

/-- Count of ':' characters in a string; models Python `history.count(':')`. -/
def countColons (s : String) : Nat :=
  (s.toList.filter (fun c => c == ':')).length

/-- BaseDatabase._set_address_history: UPDATE pubkey_address SET history = ?,
used_times = ? WHERE address = ?, with used_times computed as
`history.count(':') // 2`. -/
def db_set_address_history (table : List AddressRow) (address : String)
    (history : String) : List AddressRow :=
  table.map (fun r =>
    if r.address = address then
      { r with history := some history, used_times := countColons history / 2 }
    else r)

/-- BaseDatabase.add_keys: bulk INSERT INTO pubkey_address
(address, account, chain, position, pubkey); `history` stays NULL and
`used_times` takes its schema default 0. -/
def db_add_keys (table : List AddressRow) (account : String) (chain : Nat)
    (keys : List (Nat × PubKey)) : List AddressRow :=
  table ++ keys.map (fun k =>
    { address := k.2.address, account := account, chain := chain,
      position := k.1, pubkey := k.2, history := none, used_times := 0 })

/-- WHERE clause of BaseDatabase.get_addresses: optional equality filters on
account and chain plus the optional `used_times <= :used_times` filter. -/
def rowFilter (account : Option String) (chain : Option Nat)
    (max_used_times : Option Nat) (r : AddressRow) : Bool :=
  (match account with | none => true | some a => r.account == a) &&
  (match chain with | none => true | some c => r.chain == c) &&
  (match max_used_times with | none => true | some mu => decide (r.used_times ≤ mu))

/-- The ORDER BY strings that BaseDatabase.get_addresses receives from the
address managers: none, "position ASC", "position DESC",
"used_times ASC, position ASC". -/
inductive OrderBy where
  | unordered
  | posAsc
  | posDesc
  | usedAscPosAsc
deriving DecidableEq, Repr

def posAscRel (a b : AddressRow) : Prop := a.position ≤ b.position

instance : DecidableRel posAscRel := fun a b => Nat.decLe a.position b.position

def posDescRel (a b : AddressRow) : Prop := b.position ≤ a.position

instance : DecidableRel posDescRel := fun a b => Nat.decLe b.position a.position

def usedAscPosAscRel (a b : AddressRow) : Prop :=
  a.used_times < b.used_times ∨ (a.used_times = b.used_times ∧ a.position ≤ b.position)

instance : DecidableRel usedAscPosAscRel := fun a b => by
  unfold usedAscPosAscRel; exact inferInstance

def applyOrder : OrderBy → List AddressRow → List AddressRow
  | .unordered, l => l
  | .posAsc, l => List.insertionSort posAscRel l
  | .posDesc, l => List.insertionSort posDescRel l
  | .usedAscPosAsc, l => List.insertionSort usedAscPosAscRel l

/-- BaseDatabase.get_addresses: filter by the optional account, chain and
max_used_times constraints, apply ORDER BY, apply LIMIT.  (The source also
projects away the columns pinned by the filter; the managers only read the
address, position and used_times columns, which are always kept, so rows are
returned whole here.) -/
def db_get_addresses (table : List AddressRow) (account : Option String)
    (chain : Option Nat) (limit : Option Nat) (max_used_times : Option Nat)
    (order_by : OrderBy) : List AddressRow :=
  let rows := applyOrder order_by (table.filter (rowFilter account chain max_used_times))
  match limit with
  | none => rows
  | some n => rows.take n

/-! ## HierarchicalDeterministic address manager (baseaccount.py 79-150) -/

structure HierarchicalDeterministic where
  account : String
  public_key : PubKey
  chain_number : Nat
  gap : Nat
  maximum_uses_per_address : Nat
deriving DecidableEq, Repr

/-- HierarchicalDeterministic.__init__: the manager's key is the account's
master public key derived one level by the chain number, and `account` is the
account identifier used in the database (the master key's address). -/
def HierarchicalDeterministic.make (accountKey : PubKey) (chain : Nat)
    (gap : Nat) (maximum_uses_per_address : Nat) : HierarchicalDeterministic :=
  { account := accountKey.address, public_key := accountKey.child chain,
    chain_number := chain, gap := gap,
    maximum_uses_per_address := maximum_uses_per_address }

/-- AddressManager._query_addresses: db.get_addresses pinned to this
account and chain. -/
def HierarchicalDeterministic.query_addresses (m : HierarchicalDeterministic)
    (table : List AddressRow) (limit : Option Nat) (max_used_times : Option Nat)
    (order_by : OrderBy) : List AddressRow :=
  db_get_addresses table (some m.account) (some m.chain_number) limit max_used_times order_by

/-- HierarchicalDeterministic.generate_keys(start, end): derive
`public_key.child(i)` for i in range(start, end+1), insert the rows via
add_keys, return the new addresses in order.  `stop` is the Python `end`
(inclusive). -/
def HierarchicalDeterministic.generate_keys (m : HierarchicalDeterministic)
    (table : List AddressRow) (start stop : Nat) : List String × List AddressRow :=
  let new_keys := (List.range (stop + 1 - start)).map
    (fun i => (start + i, m.public_key.child (start + i)))
  (new_keys.map (fun k => k.2.address),
   db_add_keys table m.account m.chain_number new_keys)

/-- Loop body of HierarchicalDeterministic.get_max_gap: scan rows tracking
(max_gap, current_gap); a used row closes the current run, the trailing run
is discarded when the list ends. -/
def maxGapLoop : List AddressRow → Nat → Nat → Nat
  | [], max_gap, _ => max_gap
  | a :: rest, max_gap, current_gap =>
    if a.used_times = 0 then maxGapLoop rest max_gap (current_gap + 1)
    else maxGapLoop rest (max max_gap current_gap) 0

/-- HierarchicalDeterministic.get_max_gap: scan the chain ordered by
"position ASC". -/
def HierarchicalDeterministic.get_max_gap (m : HierarchicalDeterministic)
    (table : List AddressRow) : Nat :=
  maxGapLoop (m.query_addresses table none none .posAsc) 0 0

/-- The `for address in addresses: if used_times == 0: existing_gap += 1 else:
break` loop of ensure_address_gap. -/
def countLeadingUnused : List AddressRow → Nat
  | [] => 0
  | a :: rest => if a.used_times = 0 then countLeadingUnused rest + 1 else 0

/-- HierarchicalDeterministic.ensure_address_gap: look at the last `gap` rows
by position descending, count the trailing never-used run, and if it is
shorter than `gap` generate keys for positions start .. start+(gap-existing_gap)-1
where start is one past the highest existing position (0 on an empty chain).
Returns the new addresses and the new table state. -/
def HierarchicalDeterministic.ensure_address_gap (m : HierarchicalDeterministic)
    (table : List AddressRow) : List String × List AddressRow :=
  let addresses := m.query_addresses table (some m.gap) none .posDesc
  let existing_gap := countLeadingUnused addresses
  if existing_gap = m.gap then ([], table)
  else
    let start := match addresses with
      | [] => 0
      | a :: _ => a.position + 1
    let stop := start + (m.gap - existing_gap)
    m.generate_keys table start (stop - 1)

/-- HierarchicalDeterministic.get_address_records: usable selection filters by
`used_times <= maximum_uses_per_address` and orders by
"used_times ASC, position ASC". -/
def HierarchicalDeterministic.get_address_records (m : HierarchicalDeterministic)
    (table : List AddressRow) (limit : Option Nat) (only_usable : Bool) : List AddressRow :=
  m.query_addresses table limit
    (if only_usable then some m.maximum_uses_per_address else none)
    .usedAscPosAsc

/-- AddressManager.get_addresses: the address column of get_address_records. -/
def HierarchicalDeterministic.get_addresses (m : HierarchicalDeterministic)
    (table : List AddressRow) (limit : Option Nat) (only_usable : Bool) : List String :=
  (m.get_address_records table limit only_usable).map (fun r => r.address)

/-- AddressManager.get_or_create_usable_address instantiated at the
deterministic variant: take the first of get_addresses(limit=1,
only_usable=True), else the first address returned by ensure_address_gap.
The Python `addresses[0]` indexing is modelled with `head?` so that claims
about it being in bounds are statable. -/
def HierarchicalDeterministic.get_or_create_usable_address
    (m : HierarchicalDeterministic) (table : List AddressRow) :
    Option String × List AddressRow :=
  match m.get_addresses table (some 1) true with
  | a :: _ => (some a, table)
  | [] =>
    let p := m.ensure_address_gap table
    (p.1.head?, p.2)

/-! ## SingleKey address manager (baseaccount.py 153-186) -/

structure SingleKey where
  account : String
  public_key : PubKey
  chain_number : Nat
deriving DecidableEq, Repr

/-- SingleKey.from_dict builds the manager on the account's master public key
itself. -/
def SingleKey.make (accountKey : PubKey) (chain : Nat) : SingleKey :=
  { account := accountKey.address, public_key := accountKey, chain_number := chain }

/-- SingleKey.get_address_records: `return self._query_addresses()` — both the
limit and only_usable parameters are ignored and the unfiltered, unordered,
unlimited per-chain query runs instead. -/
def SingleKey.get_address_records (m : SingleKey) (table : List AddressRow)
    (limit : Option Nat) (only_usable : Bool) : List AddressRow :=
  db_get_addresses table (some m.account) (some m.chain_number) none none .unordered

/-- AddressManager.get_addresses at the single variant. -/
def SingleKey.get_addresses (m : SingleKey) (table : List AddressRow)
    (limit : Option Nat) (only_usable : Bool) : List String :=
  (m.get_address_records table limit only_usable).map (fun r => r.address)

/-- SingleKey.ensure_address_gap: if the chain has no rows insert
`(0, public_key)` and return the master key's address, else do nothing. -/
def SingleKey.ensure_address_gap (m : SingleKey) (table : List AddressRow) :
    List String × List AddressRow :=
  match m.get_address_records table none false with
  | [] =>
    ([m.public_key.address], db_add_keys table m.account m.chain_number [(0, m.public_key)])
  | _ :: _ => ([], table)

/-- SingleKey.get_max_gap: `return defer.succeed(0)`. -/
def SingleKey.get_max_gap (m : SingleKey) (table : List AddressRow) : Nat := 0

/-- AddressManager.get_or_create_usable_address at the single variant. -/
def SingleKey.get_or_create_usable_address (m : SingleKey)
    (table : List AddressRow) : Option String × List AddressRow :=
  match m.get_addresses table (some 1) true with
  | a :: _ => (some a, table)
  | [] =>
    let p := m.ensure_address_gap table
    (p.1.head?, p.2)

/-! ## BaseAccount.fund dispatch (baseaccount.py 327-363)

The branch structure of fund: `if everything: ... elif amount > 0: ... else:
raise ValueError('An amount is required.')`.  `amount` defaults to None and in
Python 3 evaluating `None > 0` raises TypeError before the ValueError branch
can be reached; `fundDispatch` records which branch (or exception) the
evaluation of the guards selects. -/

inductive FundOutcome where
  | typeErr
  | valueErr
  | proceedEverything
  | proceedAmount
deriving DecidableEq, Repr

def fundDispatch (everything : Bool) (amount : Option Int) : FundOutcome :=
  if everything then .proceedEverything
  else
    match amount with
    | none => .typeErr
    | some a => if a > 0 then .proceedAmount else .valueErr

/-! ## Constraint compiler (basedatabase.py 13-38)

A constraint value is either a plain SQL parameter value or, under an `__any`
key, a nested constraint mapping.  The Python dict is modelled as an
association list in insertion order; `constraints_to_sql` returns the SQL
fragment together with the mutated constraint map (the source pops each
`__any` key and re-promotes its sub-keys, prefixed, into the outer map).
`none` models the exception Python raises when the payload under an `__any`
key is not a mapping. -/

inductive CValue where
  | val (s : String)
  | sub (cs : List (String × CValue))
deriving Repr

/-- Python `key.endswith(t)`, on the character list (Lean's own String.endsWith
is byte-position based and opaque to the kernel; this one is equivalent and
computable in proofs). -/
def pyEndsWith (s t : String) : Bool := t.toList.isSuffixOf s.toList

/-- Python `key[:-n]`: drop the last n characters. -/
def pyDropLast (s : String) (n : Nat) : String :=
  ⟨s.toList.take (s.toList.length - n)⟩

/-- Python `joiner.join(extras)`. -/
def joinStr (sep : String) : List String → String
  | [] => ""
  | [a] => a
  | a :: rest => a ++ sep ++ joinStr sep rest

/-- Python `dict.pop(key)`' s removal effect on the insertion-ordered map
(keys are unique). -/
def mapRemove (m : List (String × CValue)) (key : String) : List (String × CValue) :=
  m.filter (fun p => p.1 ≠ key)

mutual

/-- constraints_to_sql(constraints, joiner, prepend_sql, prepend_key): returns
`''` on an empty map, otherwise compiles each key of a snapshot of the map
into a fragment and joins them behind prepend_sql.  The second component is
the constraint map after the loop's mutations. -/
def constraints_to_sql (cs : List (String × CValue))
    (joiner prepend_sql prepend_key : String) :
    Option (String × List (String × CValue)) :=
  if cs.isEmpty then some ("", cs)
  else
    match cts_loop cs cs prepend_key with
    | none => none
    | some (extras, m) =>
      some (if extras.isEmpty then "" else prepend_sql ++ joinStr joiner extras, m)
  termination_by (sizeOf cs, 1)
  decreasing_by simp_wf; apply Prod.Lex.right; omega

/-- The `for key in list(constraints)` loop: `snapshot` is the key snapshot
(with the values they had when it was taken; keys are unique and only `__any`
keys are ever removed, so the snapshot values agree with the live map), `m`
is the live map being mutated. -/
def cts_loop (snapshot m : List (String × CValue)) (prepend_key : String) :
    Option (List String × List (String × CValue)) :=
  match snapshot with
  | [] => some ([], m)
  | (key, v) :: rest =>
    if pyEndsWith key "__not" then
      cts_emit (pyDropLast key 5) "!=" key rest m prepend_key
    else if pyEndsWith key "__lt" then
      cts_emit (pyDropLast key 4) "<" key rest m prepend_key
    else if pyEndsWith key "__lte" then
      cts_emit (pyDropLast key 5) "<=" key rest m prepend_key
    else if pyEndsWith key "__gt" then
      cts_emit (pyDropLast key 4) ">" key rest m prepend_key
    else if pyEndsWith key "__like" then
      cts_emit (pyDropLast key 6) "LIKE" key rest m prepend_key
    else if pyEndsWith key "__any" then
      match v with
      | .val _ => none
      | .sub subcs =>
        match constraints_to_sql subcs " OR " "" (key ++ "_") with
        | none => none
        | some (subSql, subMap) =>
          let m2 := mapRemove m key ++ subMap.map (fun p => (key ++ "_" ++ p.1, p.2))
          match cts_loop rest m2 prepend_key with
          | none => none
          | some (extras, mFinal) => some (("(" ++ subSql ++ ")") :: extras, mFinal)
    else
      cts_emit key "=" key rest m prepend_key
  termination_by (sizeOf snapshot, 0)
  decreasing_by
    all_goals simp_wf
    all_goals first
      | (apply Prod.Lex.left; omega)
      | (apply Prod.Lex.right; omega)

/-- Shared tail of the non-`__any` branches: emit
`'{} {} :{}'.format(col, op, prepend_key + key)` and continue the loop. -/
def cts_emit (col op key : String) (rest : List (String × CValue))
    (m : List (String × CValue)) (prepend_key : String) :
    Option (List String × List (String × CValue)) :=
  match cts_loop rest m prepend_key with
  | none => none
  | some (extras, mFinal) =>
    some ((col ++ " " ++ op ++ " :" ++ (prepend_key ++ key)) :: extras, mFinal)
  termination_by (sizeOf rest, 2)
  decreasing_by simp_wf; apply Prod.Lex.right; omega

end

/-! ## Transaction ingestion (basedatabase.py 176-257)

Modelled from the spec where the transaction object itself is concerned: the
Tx/TxOutput/TxInput/Script interface comes from torba/basetransaction.py which
is not under src/.  Spec sections 3 and 4.4 give it: `txoid` is
`txid:position`, a script is recognized as pay-to-pubkey-hash (carrying a
`pubkey_hash` value) or pay-to-script-hash, and each input carries the txoid
of the output it spends (`txi.txo_ref.id`). -/

structure Script where
  is_pay_pubkey_hash : Bool
  is_pay_script_hash : Bool
  pubkey_hash : String
  source : String
deriving DecidableEq, Repr

structure TxOutput where
  position : Nat
  amount : Int
  script : Script
deriving DecidableEq, Repr

structure TxInput where
  txo_ref_id : String
deriving DecidableEq, Repr

structure Tx where
  id : String
  raw : String
  outputs : List TxOutput
  inputs : List TxInput
deriving DecidableEq, Repr

/-- txo.id of an output of `tx`: "txid:position". -/
def txoId (tx : Tx) (o : TxOutput) : String := tx.id ++ ":" ++ toString o.position

/-- Rows of the tx table: `(txid primary key, raw, height, is_verified)`. -/
structure TxRow where
  txid : String
  raw : String
  height : Int
  is_verified : Bool
deriving DecidableEq, Repr

/-- Rows of the txo table: `(txid, txoid primary key, address, position,
amount, script, is_reserved default 0)`. -/
structure TxoRow where
  txid : String
  txoid : String
  address : String
  position : Nat
  amount : Int
  script : String
  is_reserved : Bool
deriving DecidableEq, Repr

/-- Rows of the txi table: `(txid, txoid, address)`, no primary key. -/
structure TxiRow where
  txid : String
  txoid : String
  address : String
deriving DecidableEq, Repr

/-- The four tables of BaseDatabase. -/
structure DBState where
  tx : List TxRow
  txo : List TxoRow
  txi : List TxiRow
  pubkey_address : List AddressRow
deriving DecidableEq, Repr

/-- BaseDatabase.txo_to_row. -/
def txo_to_row (tx : Tx) (address : String) (o : TxOutput) : TxoRow :=
  { txid := tx.id, txoid := txoId tx o, address := address,
    position := o.position, amount := o.amount, script := o.script.source,
    is_reserved := false }

def updTxRow (height : Int) (is_verified : Bool) (txid : String) (r : TxRow) : TxRow :=
  if r.txid = txid then { r with height := height, is_verified := is_verified } else r

/-- Step 1 of save_transaction_io: mode "insert" inserts the tx row (the
sqlite primary key on txid makes a duplicate insert raise, modelled as
`none`), mode "update" updates height and is_verified for the txid, any other
mode skips. -/
def stepSaveTx (save_tx : String) (tx : Tx) (height : Int) (is_verified : Bool)
    (txTable : List TxRow) : Option (List TxRow) :=
  if save_tx = "insert" then
    if txTable.any (fun r => r.txid == tx.id) then none
    else some (txTable ++ [{ txid := tx.id, raw := tx.raw, height := height,
                             is_verified := is_verified }])
  else if save_tx = "update" then
    some (txTable.map (updTxRow height is_verified tx.id))
  else some txTable

/-- INSERT INTO txo; txoid is the primary key, a duplicate raises. -/
def insertTxoRow (l : List TxoRow) (r : TxoRow) : Option (List TxoRow) :=
  if l.any (fun x => x.txoid == r.txoid) then none else some (l ++ [r])

/-- `SELECT position FROM txo WHERE txid = ?`. -/
def txoPositions (txid : String) (l : List TxoRow) : List Nat :=
  (l.filter (fun r => r.txid == txid)).map (fun r => r.position)

/-- The `for txo in tx.outputs` loop of step 2: skip positions already stored
(the `existing` snapshot is computed once, before the loop), insert owned
P2PKH outputs, log-and-skip P2SH outputs, silently ignore the rest. -/
def outputsFold (tx : Tx) (address txhash : String) (existing : List Nat) :
    List TxOutput → List TxoRow → Option (List TxoRow)
  | [], l => some l
  | o :: os, l =>
    if o.position ∈ existing then outputsFold tx address txhash existing os l
    else if o.script.is_pay_pubkey_hash && (o.script.pubkey_hash == txhash) then
      match insertTxoRow l (txo_to_row tx address o) with
      | none => none
      | some l2 => outputsFold tx address txhash existing os l2
    else outputsFold tx address txhash existing os l

/-- Step 2 of save_transaction_io on the txo table. -/
def stepOutputs (tx : Tx) (address txhash : String) (txoTable : List TxoRow) :
    Option (List TxoRow) :=
  outputsFold tx address txhash (txoPositions tx.id txoTable) tx.outputs txoTable

/-- `SELECT txoid FROM txi WHERE txid = ?`. -/
def txiTxoids (txid : String) (l : List TxiRow) : List String :=
  (l.filter (fun r => r.txid == txid)).map (fun r => r.txoid)

/-- The `{txoid: address}` dict built from `SELECT txoid, address FROM txo
WHERE txoid in (...)` over the txoids referenced by the inputs; txoid is the
txo primary key so `find?` agrees with the dict. -/
def txoidLookup (tx : Tx) (txoTable : List TxoRow) : String → Option String :=
  let txoids := tx.inputs.map (fun i => i.txo_ref_id)
  let rows := txoTable.filter (fun r => txoids.contains r.txoid)
  fun oid => (rows.find? (fun r => r.txoid == oid)).map (fun r => r.address)

/-- The `for txi in tx.inputs` loop of step 3: insert `(txid, txoid, address)`
when the txoid is new for this txid and its txo belongs to the ingesting
address (`txoid_to_address.get(txoid) == address`, false when the lookup
misses); both snapshots are computed before the loop. -/
def inputsFold (txid address : String) (lookup : String → Option String)
    (existing : List String) : List TxInput → List TxiRow → List TxiRow
  | [], l => l
  | i :: rest, l =>
    if (!(existing.contains i.txo_ref_id)) && (lookup i.txo_ref_id == some address) then
      inputsFold txid address lookup existing rest
        (l ++ [{ txid := txid, txoid := i.txo_ref_id, address := address }])
    else inputsFold txid address lookup existing rest l

/-- Step 3 of save_transaction_io: reads the txo table as already updated by
step 2 (same interaction), writes the txi table. -/
def stepInputs (tx : Tx) (address : String) (txoTable : List TxoRow)
    (txiTable : List TxiRow) : List TxiRow :=
  inputsFold tx.id address (txoidLookup tx txoTable) (txiTxoids tx.id txiTable)
    tx.inputs txiTable

/-- BaseDatabase.save_transaction_io: the four steps of `_steps` run in one
interaction; an exception anywhere (a primary-key violation on an insert)
rolls the whole interaction back, modelled by `none`. -/
def save_transaction_io (save_tx : String) (tx : Tx) (height : Int)
    (is_verified : Bool) (address txhash history : String) (s : DBState) :
    Option DBState :=
  match stepSaveTx save_tx tx height is_verified s.tx with
  | none => none
  | some txTable =>
    match stepOutputs tx address txhash s.txo with
    | none => none
    | some txoTable =>
      some { tx := txTable, txo := txoTable,
             txi := stepInputs tx address txoTable s.txi,
             pubkey_address := db_set_address_history s.pubkey_address address history }

/-! ## Spec-side characterization used by C4 -/

/-- Modelled from the spec (section 4.2): the lengths of the runs of rows with
`used_times == 0` that are closed by a used row while scanning by position
ascending; `cur` is the length of the currently open run, and a run still open
when the scan ends (the trailing unused run) is discarded. -/
def runLengthsClosed : List AddressRow → Nat → List Nat
  | [], _ => []
  | a :: rest, cur =>
    if a.used_times = 0 then runLengthsClosed rest (cur + 1)
    else cur :: runLengthsClosed rest 0

theorem maxGapLoop_eq_closed_runs (l : List AddressRow) :
    ∀ mg c, maxGapLoop l mg c = max mg ((runLengthsClosed l c).foldr max 0) := by
  induction l with
  | nil => intro mg c; simp [maxGapLoop, runLengthsClosed]
  | cons a rest ih =>
    intro mg c
    by_cases h : a.used_times = 0
    · simp only [maxGapLoop, runLengthsClosed, if_pos h, ih]
    · simp only [maxGapLoop, runLengthsClosed, if_neg h, ih, List.foldr_cons, Nat.max_assoc]

/-! ## Concrete scenario shared by C1, C3 and C4 (spec section 8, scenarios 1-2)

A fresh deterministic receiving chain with gap 20 and maximum_uses_per_address
2, on an account whose master public key is the root path. -/

def acctKey : PubKey := ⟨[]⟩

def hdRecv : HierarchicalDeterministic := HierarchicalDeterministic.make acctKey 0 20 2

/-- Address table after the first gap fill on the fresh chain. -/
def s1Table : List AddressRow := (hdRecv.ensure_address_gap []).2

/-- The address at position 5 of the chain. -/
def addr5 : String := ((acctKey.child 0).child 5).address

/-- Address table after set_address_history marks position 5 with a four-colon
history, making its used_times 4 / 2 = 2. -/
def s2Table : List AddressRow := db_set_address_history s1Table addr5 "a:1:b:2:"

/-! ## C3 -/

set_option maxHeartbeats 1000000 in
/-- C3: on an empty deterministic chain with gap = 20, ensure_address_gap
generates exactly 20 addresses at positions 0..19, all with used_times = 0,
returning exactly the addresses of the inserted rows; an immediately following
call returns the empty list and leaves the table unchanged. -/
theorem c3_fresh_chain_gap_fill :
    (hdRecv.ensure_address_gap []).1.length = 20 ∧
    (hdRecv.ensure_address_gap []).1 = s1Table.map (fun r => r.address) ∧
    s1Table.map (fun r => r.position) = List.range 20 ∧
    s1Table.all (fun r => r.used_times == 0) = true ∧
    hdRecv.ensure_address_gap s1Table = ([], s1Table) := by decide

/-! ## C1 -/

set_option maxHeartbeats 1000000 in
/-- C1 counterexample: with positions 0..19 present and only position 5 used
(used_times = 2), ensure_address_gap does not generate exactly one key: it
returns six new addresses, not one. -/
theorem c1_counterexample :
    (s2Table.filter (fun r => r.address == addr5)).map (fun r => r.used_times) = [2] ∧
    (s2Table.filter (fun r => r.address == addr5)).map (fun r => r.position) = [5] ∧
    s2Table.map (fun r => r.position) = List.range 20 ∧
    (hdRecv.ensure_address_gap s2Table).1.length ≠ 1 := by decide

set_option maxHeartbeats 1000000 in
/-- C1 amended: in that state the trailing never-used run inside the last
gap-many rows has length 14 (positions 6..19), so ensure_address_gap generates
gap - 14 = 6 new keys, at positions 20 through 25. -/
theorem c1_six_keys_after_marking_position5 :
    (hdRecv.ensure_address_gap s2Table).1 =
      ["addr/0/20", "addr/0/21", "addr/0/22", "addr/0/23", "addr/0/24", "addr/0/25"] ∧
    (hdRecv.ensure_address_gap s2Table).2.map (fun r => r.position) = List.range 26 := by
  decide

/-! ## C4 -/

set_option maxHeartbeats 1000000 in
/-- C4: get_max_gap equals the largest length among the runs of used_times = 0
rows closed by a used row in the position-ascending scan (a trailing unused
run is never counted), and on the chain 0..19 with only position 5 used it
returns 5. -/
theorem c4_get_max_gap_closed_runs (m : HierarchicalDeterministic) (t : List AddressRow) :
    m.get_max_gap t =
      (runLengthsClosed (m.query_addresses t none none .posAsc) 0).foldr max 0 ∧
    hdRecv.get_max_gap s2Table = 5 := by
  constructor
  · unfold HierarchicalDeterministic.get_max_gap
    rw [maxGapLoop_eq_closed_runs]
    exact Nat.zero_max _
  · decide

set_option maxHeartbeats 1000000 in
/-- Witness for C4 at the scenario chain with only position 5 used. -/
theorem c4_get_max_gap_closed_runs_witness :
    (hdRecv.get_max_gap s2Table =
      (runLengthsClosed (hdRecv.query_addresses s2Table none none .posAsc) 0).foldr max 0 ∧
    hdRecv.get_max_gap s2Table = 5) :=
  c4_get_max_gap_closed_runs hdRecv s2Table

/-! ## C5 -/

/-- C5 counterexample: a key with the unrecognized suffix __gte is not
rejected by constraints_to_sql; the call succeeds and emits a fragment using
the whole key as the column name with the default '=' operator. -/
theorem c5_counterexample :
    constraints_to_sql [("height__gte", CValue.val "10")] " AND " " AND " "" =
      some (" AND height__gte = :height__gte", [("height__gte", CValue.val "10")]) := by
  simp +decide [constraints_to_sql, cts_loop, cts_emit, joinStr]

/-- C5 amended: constraints_to_sql does not reject unrecognized suffixes; any
key matching none of __not, __lt, __lte, __gt, __like, __any falls through to
the default branch and compiles to `key = :key`. -/
theorem c5_unknown_suffix_compiles_as_equality (key : String) (v : CValue)
    (h1 : pyEndsWith key "__not" = false) (h2 : pyEndsWith key "__lt" = false)
    (h3 : pyEndsWith key "__lte" = false) (h4 : pyEndsWith key "__gt" = false)
    (h5 : pyEndsWith key "__like" = false) (h6 : pyEndsWith key "__any" = false) :
    constraints_to_sql [(key, v)] " AND " " AND " "" =
      some (" AND " ++ key ++ " = :" ++ key, [(key, v)]) := by
  rw [constraints_to_sql]
  rw [cts_loop.eq_def]
  simp [h1, h2, h3, h4, h5, h6, cts_emit, cts_loop, joinStr, String.append_assoc]

/-- Witness for the amended C5 statement at the concrete key height__gte. -/
theorem c5_unknown_suffix_compiles_as_equality_witness :
    constraints_to_sql [("height__gte", CValue.val "10")] " AND " " AND " "" =
      some (" AND " ++ "height__gte" ++ " = :" ++ "height__gte",
            [("height__gte", CValue.val "10")]) :=
  c5_unknown_suffix_compiles_as_equality "height__gte" (CValue.val "10")
    (by decide) (by decide) (by decide) (by decide) (by decide) (by decide)

/-! ## C8 -/

/-- C8: in BaseAccount.fund with everything = False, a missing amount (None)
reaches the Python comparison `None > 0` which raises TypeError, not the
documented ValueError; the ValueError branch is reached exactly when
everything is falsy and amount is an integer less than or equal to zero. -/
theorem c8_fund_none_amount_type_error (a : Int) (ha : a ≤ 0) (e : Bool)
    (am : Option Int) (hv : fundDispatch e am = .valueErr) :
    fundDispatch false none = .typeErr ∧
    fundDispatch false (some a) = .valueErr ∧
    (e = false ∧ ∃ x, am = some x ∧ x ≤ 0) := by
  refine ⟨rfl, ?_, ?_⟩
  · simp only [fundDispatch, Bool.false_eq_true, if_false]
    rw [if_neg (by omega)]
  · cases e with
    | true => simp [fundDispatch] at hv
    | false =>
      cases am with
      | none => simp [fundDispatch] at hv
      | some x =>
        by_cases hx : x > 0
        · simp [fundDispatch, hx] at hv
        · exact ⟨rfl, x, rfl, by omega⟩

/-- Witness for C8 at amount = 0. -/
theorem c8_fund_none_amount_type_error_witness :
    fundDispatch false none = .typeErr ∧
    fundDispatch false (some 0) = .valueErr ∧
    (false = false ∧ ∃ x, (some (0 : Int)) = some x ∧ x ≤ 0) :=
  c8_fund_none_amount_type_error 0 (by decide) false (some 0) (by decide)

/-! ## C6 -/

theorem set_history_used_times (t : List AddressRow) (address history : String)
    (r : AddressRow) (hr : r ∈ db_set_address_history t address history)
    (ha : r.address = address) :
    r.used_times = countColons history / 2 := by
  unfold db_set_address_history at hr
  rcases List.mem_map.mp hr with ⟨r0, _, heq⟩
  by_cases h : r0.address = address
  · rw [if_pos h] at heq
    rw [← heq]
  · rw [if_neg h] at heq
    rw [← heq] at ha
    exact absurd ha h

/-- C6: after set_address_history (modelled by db_set_address_history) and
equally after step 4 of save_transaction_io, every stored row carrying the
written address has used_times equal to the number of ':' characters of the
written history string divided by 2. -/
theorem c6_used_times_half_colon_count (t : List AddressRow) (address history : String)
    (r : AddressRow) (hr : r ∈ db_set_address_history t address history)
    (ha : r.address = address)
    (save_tx : String) (tx : Tx) (height : Int) (is_verified : Bool) (txhash : String)
    (s s' : DBState)
    (hsave : save_transaction_io save_tx tx height is_verified address txhash history s = some s')
    (r2 : AddressRow) (hr2 : r2 ∈ s'.pubkey_address) (ha2 : r2.address = address) :
    r.used_times = countColons history / 2 ∧ r2.used_times = countColons history / 2 := by
  refine ⟨set_history_used_times t address history r hr ha, ?_⟩
  unfold save_transaction_io at hsave
  cases h1 : stepSaveTx save_tx tx height is_verified s.tx with
  | none => rw [h1] at hsave; exact absurd hsave (by simp)
  | some txTable =>
    rw [h1] at hsave
    cases h2 : stepOutputs tx address txhash s.txo with
    | none => rw [h2] at hsave; exact absurd hsave (by simp)
    | some txoTable =>
      rw [h2] at hsave
      injection hsave with hs
      rw [← hs] at hr2
      exact set_history_used_times s.pubkey_address address history r2 hr2 ha2

/-- Witness for C6 on a one-row table and a four-colon history string. -/
theorem c6_used_times_half_colon_count_witness :
    ({ address := "adx", account := "acct", chain := 0, position := 0,
       pubkey := ⟨[0, 0]⟩, history := some "a:1:b:2:", used_times := 2 } : AddressRow).used_times
      = countColons "a:1:b:2:" / 2 ∧
    ({ address := "adx", account := "acct", chain := 0, position := 0,
       pubkey := ⟨[0, 0]⟩, history := some "a:1:b:2:", used_times := 2 } : AddressRow).used_times
      = countColons "a:1:b:2:" / 2 :=
  c6_used_times_half_colon_count
    [{ address := "adx", account := "acct", chain := 0, position := 0,
       pubkey := ⟨[0, 0]⟩, history := none, used_times := 0 }] "adx" "a:1:b:2:"
    { address := "adx", account := "acct", chain := 0, position := 0,
      pubkey := ⟨[0, 0]⟩, history := some "a:1:b:2:", used_times := 2 }
    (by decide) (by decide)
    "skip" { id := "aa", raw := "r", outputs := [], inputs := [] } 5 true "h160"
    { tx := [], txo := [], txi := [],
      pubkey_address := [{ address := "adx", account := "acct", chain := 0, position := 0,
                           pubkey := ⟨[0, 0]⟩, history := none, used_times := 0 }] }
    { tx := [], txo := [], txi := [],
      pubkey_address := [{ address := "adx", account := "acct", chain := 0, position := 0,
                           pubkey := ⟨[0, 0]⟩, history := some "a:1:b:2:", used_times := 2 }] }
    (by decide)
    { address := "adx", account := "acct", chain := 0, position := 0,
      pubkey := ⟨[0, 0]⟩, history := some "a:1:b:2:", used_times := 2 }
    (by decide) (by decide)

/-! ## C7 -/

/-- C7: on a chain with no stored rows, SingleKey.ensure_address_gap inserts
exactly one row, at position 0 with the master public key's address, and
returns that one address; any call made while the chain has rows inserts
nothing and returns []; and right after the first call the chain does have a
row, so at most one address is ever produced. -/
theorem c7_single_key_at_most_one_address (m : SingleKey) (t : List AddressRow)
    (h : m.get_address_records t none false = []) :
    (m.ensure_address_gap t).1 = [m.public_key.address] ∧
    (m.ensure_address_gap t).2 = t ++
      [{ address := m.public_key.address, account := m.account,
         chain := m.chain_number, position := 0, pubkey := m.public_key,
         history := none, used_times := 0 }] ∧
    m.get_address_records (m.ensure_address_gap t).2 none false ≠ [] ∧
    (∀ u : List AddressRow, m.get_address_records u none false ≠ [] →
      m.ensure_address_gap u = ([], u)) := by
  have hgap : m.ensure_address_gap t =
      ([m.public_key.address], db_add_keys t m.account m.chain_number [(0, m.public_key)]) := by
    unfold SingleKey.ensure_address_gap
    rw [h]
  have hfil : t.filter (rowFilter (some m.account) (some m.chain_number) none) = [] := by
    have := h
    unfold SingleKey.get_address_records db_get_addresses applyOrder at this
    exact this
  refine ⟨by rw [hgap], by rw [hgap]; simp [db_add_keys], ?_, ?_⟩
  · rw [hgap]
    unfold SingleKey.get_address_records db_get_addresses applyOrder
    have hmem : ({ address := m.public_key.address, account := m.account,
                   chain := m.chain_number, position := 0, pubkey := m.public_key,
                   history := none, used_times := 0 } : AddressRow) ∈
        List.filter (rowFilter (some m.account) (some m.chain_number) none)
          (db_add_keys t m.account m.chain_number [(0, m.public_key)]) :=
      List.mem_filter.mpr ⟨by simp [db_add_keys], by simp [rowFilter]⟩
    exact List.ne_nil_of_mem hmem
  · intro u hu
    unfold SingleKey.ensure_address_gap
    cases hrec : m.get_address_records u none false with
    | nil => exact absurd hrec hu
    | cons a l => rfl

/-- Witness for C7 starting from the empty table. -/
theorem c7_single_key_at_most_one_address_witness :
    ((SingleKey.make ⟨[7]⟩ 0).ensure_address_gap []).1 = [(PubKey.address ⟨[7]⟩)] ∧
    ((SingleKey.make ⟨[7]⟩ 0).ensure_address_gap []).2 = [] ++
      [{ address := (PubKey.address ⟨[7]⟩), account := (SingleKey.make ⟨[7]⟩ 0).account,
         chain := (SingleKey.make ⟨[7]⟩ 0).chain_number, position := 0,
         pubkey := (SingleKey.make ⟨[7]⟩ 0).public_key,
         history := none, used_times := 0 }] ∧
    (SingleKey.make ⟨[7]⟩ 0).get_address_records
      (((SingleKey.make ⟨[7]⟩ 0).ensure_address_gap []).2) none false ≠ [] ∧
    (∀ u : List AddressRow,
      (SingleKey.make ⟨[7]⟩ 0).get_address_records u none false ≠ [] →
      (SingleKey.make ⟨[7]⟩ 0).ensure_address_gap u = ([], u)) :=
  c7_single_key_at_most_one_address (SingleKey.make ⟨[7]⟩ 0) [] (by decide)

/-! ## C10 -/

/-- C10: SingleKey.get_address_records ignores its limit and only_usable
parameters, so on a single-address account whose sole chain row is `row`,
get_addresses(limit=1, only_usable=True) returns that address whatever its
used_times, and get_or_create_usable_address returns it as well: the
maximum_uses_per_address usability filter is never applied to this variant. -/
theorem c10_single_key_ignores_usability (m : SingleKey) (t : List AddressRow)
    (limit : Option Nat) (only_usable : Bool) (row : AddressRow)
    (hrow : t.filter (rowFilter (some m.account) (some m.chain_number) none) = [row]) :
    m.get_address_records t limit only_usable = m.get_address_records t none false ∧
    m.get_addresses t (some 1) true = [row.address] ∧
    (m.get_or_create_usable_address t).1 = some row.address := by
  have hrec : ∀ (lim : Option Nat) (u : Bool), m.get_address_records t lim u = [row] := by
    intro lim u
    unfold SingleKey.get_address_records db_get_addresses applyOrder
    simp only [hrow]
  have haddr : m.get_addresses t (some 1) true = [row.address] := by
    unfold SingleKey.get_addresses
    rw [hrec]
    rfl
  refine ⟨by rw [hrec, hrec], haddr, ?_⟩
  unfold SingleKey.get_or_create_usable_address
  rw [haddr]

/-- Witness for C10: a sole row whose used_times 999 far exceeds the default
maximum_uses_per_address of 2 is still returned. -/
theorem c10_single_key_ignores_usability_witness :
    ((SingleKey.make ⟨[7]⟩ 0).get_address_records
        [{ address := (PubKey.address ⟨[7]⟩), account := (SingleKey.make ⟨[7]⟩ 0).account,
           chain := 0, position := 0, pubkey := ⟨[7]⟩, history := none, used_times := 999 }]
        (some 1) true
      = (SingleKey.make ⟨[7]⟩ 0).get_address_records
        [{ address := (PubKey.address ⟨[7]⟩), account := (SingleKey.make ⟨[7]⟩ 0).account,
           chain := 0, position := 0, pubkey := ⟨[7]⟩, history := none, used_times := 999 }]
        none false) ∧
    ((SingleKey.make ⟨[7]⟩ 0).get_addresses
        [{ address := (PubKey.address ⟨[7]⟩), account := (SingleKey.make ⟨[7]⟩ 0).account,
           chain := 0, position := 0, pubkey := ⟨[7]⟩, history := none, used_times := 999 }]
        (some 1) true
      = [({ address := (PubKey.address ⟨[7]⟩), account := (SingleKey.make ⟨[7]⟩ 0).account,
            chain := 0, position := 0, pubkey := ⟨[7]⟩, history := none,
            used_times := 999 } : AddressRow).address]) ∧
    (((SingleKey.make ⟨[7]⟩ 0).get_or_create_usable_address
        [{ address := (PubKey.address ⟨[7]⟩), account := (SingleKey.make ⟨[7]⟩ 0).account,
           chain := 0, position := 0, pubkey := ⟨[7]⟩, history := none, used_times := 999 }]).1
      = some ({ address := (PubKey.address ⟨[7]⟩), account := (SingleKey.make ⟨[7]⟩ 0).account,
                chain := 0, position := 0, pubkey := ⟨[7]⟩, history := none,
                used_times := 999 } : AddressRow).address) :=
  c10_single_key_ignores_usability (SingleKey.make ⟨[7]⟩ 0) _ (some 1) true _ (by decide)

/-! ## Query lemmas shared by the gap-safety proofs (C9) -/

theorem mem_applyOrder {r : AddressRow} {ob : OrderBy} {l : List AddressRow} :
    r ∈ applyOrder ob l ↔ r ∈ l := by
  cases ob
  · exact Iff.rfl
  · exact (List.perm_insertionSort posAscRel l).mem_iff
  · exact (List.perm_insertionSort posDescRel l).mem_iff
  · exact (List.perm_insertionSort usedAscPosAscRel l).mem_iff

theorem applyOrder_eq_nil {ob : OrderBy} {l : List AddressRow} :
    applyOrder ob l = [] ↔ l = [] := by
  constructor
  · intro h
    cases hl : l with
    | nil => rfl
    | cons a t =>
      exfalso
      have ha : a ∈ applyOrder ob l := mem_applyOrder.mpr (hl ▸ List.mem_cons_self a t)
      rw [h] at ha
      exact List.not_mem_nil a ha
  · intro h
    cases ob <;> simp [applyOrder, h]

theorem mem_db_get_addresses {r : AddressRow} {t : List AddressRow}
    {account : Option String} {chain : Option Nat} {lim mu : Option Nat} {ob : OrderBy}
    (h : r ∈ db_get_addresses t account chain lim mu ob) :
    r ∈ t ∧ rowFilter account chain mu r = true := by
  unfold db_get_addresses at h
  have h2 : r ∈ applyOrder ob (t.filter (rowFilter account chain mu)) := by
    cases lim with
    | none => exact h
    | some n => exact List.mem_of_mem_take h
  have h3 := mem_applyOrder.mp h2
  exact ⟨(List.mem_filter.mp h3).1, (List.mem_filter.mp h3).2⟩

theorem db_get_addresses_limit_one_eq_nil {t : List AddressRow}
    {account : Option String} {chain : Option Nat} {mu : Option Nat} {ob : OrderBy}
    (h : db_get_addresses t account chain (some 1) mu ob = []) :
    t.filter (rowFilter account chain mu) = [] := by
  unfold db_get_addresses at h
  rcases List.take_eq_nil_iff.mp h with h1 | h2
  · omega
  · exact applyOrder_eq_nil.mp h2

/-! ## C9 -/

/-- C9: get_or_create_usable_address never indexes out of bounds: whenever the
usable-address query comes back empty, ensure_address_gap returns a non-empty
list — on the deterministic variant (whose gap is a positive integer per the
data model) because an empty usable query means every stored chain row has
used_times above the usability bound, hence nonzero, so the trailing unused
run is 0 and gap-many keys are generated; on the single variant because the
sole row is created on first call — so the head of the list always exists. -/
theorem c9_get_or_create_always_returns (m : HierarchicalDeterministic)
    (t : List AddressRow) (hgap : 1 ≤ m.gap) (s : SingleKey) (u : List AddressRow) :
    (m.get_address_records t (some 1) true = [] → (m.ensure_address_gap t).1 ≠ []) ∧
    (m.get_or_create_usable_address t).1 ≠ none ∧
    (s.get_or_create_usable_address u).1 ≠ none := by
  have key : m.get_address_records t (some 1) true = [] → (m.ensure_address_gap t).1 ≠ [] := by
    intro hempty
    have hfil : t.filter (rowFilter (some m.account) (some m.chain_number)
        (some m.maximum_uses_per_address)) = [] := by
      unfold HierarchicalDeterministic.get_address_records
        HierarchicalDeterministic.query_addresses at hempty
      simp only [if_pos] at hempty
      exact db_get_addresses_limit_one_eq_nil hempty
    have hused : ∀ r ∈ t, rowFilter (some m.account) (some m.chain_number) none r = true →
        r.used_times ≠ 0 := by
      intro r hrt hmatch
      have hnot := List.filter_eq_nil_iff.mp hfil r hrt
      simp only [rowFilter, Bool.and_eq_true, decide_eq_true_eq] at hnot hmatch
      intro hz
      exact hnot ⟨⟨hmatch.1.1, hmatch.1.2⟩, by omega⟩
    cases haddr : m.query_addresses t (some m.gap) none .posDesc with
    | nil =>
      simp only [HierarchicalDeterministic.ensure_address_gap, haddr, countLeadingUnused]
      rw [if_neg (by omega)]
      unfold HierarchicalDeterministic.generate_keys
      intro hc
      have hlen := congrArg List.length hc
      simp only [List.length_map, List.length_range, List.length_nil] at hlen
      omega
    | cons a rest =>
      have ha : a ∈ m.query_addresses t (some m.gap) none .posDesc := by
        rw [haddr]; exact List.mem_cons_self a rest
      unfold HierarchicalDeterministic.query_addresses at ha
      have hmem := mem_db_get_addresses ha
      have hne := hused a hmem.1 hmem.2
      simp only [HierarchicalDeterministic.ensure_address_gap, haddr, countLeadingUnused,
        if_neg hne]
      rw [if_neg (by omega)]
      unfold HierarchicalDeterministic.generate_keys
      intro hc
      have hlen := congrArg List.length hc
      simp only [List.length_map, List.length_range, List.length_nil] at hlen
      omega
  refine ⟨key, ?_, ?_⟩
  · unfold HierarchicalDeterministic.get_or_create_usable_address
    cases hq : m.get_addresses t (some 1) true with
    | cons a l => simp
    | nil =>
      have hempty : m.get_address_records t (some 1) true = [] := by
        unfold HierarchicalDeterministic.get_addresses at hq
        exact List.map_eq_nil_iff.mp hq
      have hne := key hempty
      simpa [List.head?_eq_none_iff] using hne
  · unfold SingleKey.get_or_create_usable_address
    cases hq : s.get_addresses u (some 1) true with
    | cons a l => simp
    | nil =>
      have hrec : s.get_address_records u none false = [] := by
        unfold SingleKey.get_addresses at hq
        exact List.map_eq_nil_iff.mp hq
      have : s.ensure_address_gap u =
          ([s.public_key.address], db_add_keys u s.account s.chain_number [(0, s.public_key)]) := by
        unfold SingleKey.ensure_address_gap
        rw [hrec]
      simp [this]

def hd9 : HierarchicalDeterministic := HierarchicalDeterministic.make ⟨[9]⟩ 0 1 2

def sk9 : SingleKey := SingleKey.make ⟨[9]⟩ 0

/-- Witness for C9 on a gap-1 deterministic manager and a single-key manager,
both over the empty table. -/
theorem c9_get_or_create_always_returns_witness :
    (hd9.get_address_records [] (some 1) true = [] → (hd9.ensure_address_gap []).1 ≠ []) ∧
    (hd9.get_or_create_usable_address []).1 ≠ none ∧
    (sk9.get_or_create_usable_address []).1 ≠ none :=
  c9_get_or_create_always_returns hd9 [] (by decide) sk9 []

/-! ## Idempotence lemmas for save_transaction_io (C2) -/

theorem updTxRow_idem (height : Int) (is_verified : Bool) (txid : String) (r : TxRow) :
    updTxRow height is_verified txid (updTxRow height is_verified txid r) =
      updTxRow height is_verified txid r := by
  unfold updTxRow
  by_cases h : r.txid = txid
  · simp [h]
  · simp [h]

theorem stepSaveTx_idem (save_tx : String) (tx : Tx) (height : Int) (is_verified : Bool)
    (l l2 : List TxRow) (hmode : save_tx ≠ "insert")
    (h : stepSaveTx save_tx tx height is_verified l = some l2) :
    stepSaveTx save_tx tx height is_verified l2 = some l2 := by
  unfold stepSaveTx at h ⊢
  rw [if_neg hmode] at h ⊢
  by_cases hu : save_tx = "update"
  · rw [if_pos hu] at h ⊢
    injection h with h
    subst h
    congr 1
    rw [List.map_map]
    exact List.map_congr_left (fun r _ => updTxRow_idem height is_verified tx.id r)
  · rw [if_neg hu] at h ⊢

theorem insertTxoRow_some (l : List TxoRow) (r : TxoRow) (l2 : List TxoRow)
    (h : insertTxoRow l r = some l2) : l2 = l ++ [r] := by
  unfold insertTxoRow at h
  split at h
  · exact absurd h (by simp)
  · injection h with h
    exact h.symm

theorem txoPositions_append (txid : String) (l1 l2 : List TxoRow) :
    txoPositions txid (l1 ++ l2) = txoPositions txid l1 ++ txoPositions txid l2 := by
  simp [txoPositions, List.filter_append]

theorem outputsFold_sound (tx : Tx) (address txhash : String) (existing : List Nat) :
    ∀ (os : List TxOutput) (l l2 : List TxoRow),
      outputsFold tx address txhash existing os l = some l2 →
      (∃ suf, l2 = l ++ suf) ∧
      (∀ o ∈ os, (o.script.is_pay_pubkey_hash && (o.script.pubkey_hash == txhash)) = true →
        o.position ∈ existing ∨ o.position ∈ txoPositions tx.id l2) := by
  intro os
  induction os with
  | nil =>
    intro l l2 h
    refine ⟨⟨[], ?_⟩, ?_⟩
    · injection h with h
      rw [← h]
      simp
    · intro o ho
      exact absurd ho (List.not_mem_nil o)
  | cons o os ih =>
    intro l l2 h
    unfold outputsFold at h
    by_cases hex : o.position ∈ existing
    · rw [if_pos hex] at h
      obtain ⟨⟨suf, hsuf⟩, hmem⟩ := ih l l2 h
      refine ⟨⟨suf, hsuf⟩, ?_⟩
      intro o2 ho2 hcond
      rcases List.mem_cons.mp ho2 with rfl | ho2
      · exact Or.inl hex
      · exact hmem o2 ho2 hcond
    · rw [if_neg hex] at h
      by_cases hcond : (o.script.is_pay_pubkey_hash && (o.script.pubkey_hash == txhash)) = true
      · rw [if_pos hcond] at h
        cases hins : insertTxoRow l (txo_to_row tx address o) with
        | none =>
          rw [hins] at h
          exact absurd h (by simp)
        | some lmid =>
          rw [hins] at h
          have hmid := insertTxoRow_some l _ lmid hins
          obtain ⟨⟨suf, hsuf⟩, hmem⟩ := ih lmid l2 h
          constructor
          · refine ⟨[txo_to_row tx address o] ++ suf, ?_⟩
            rw [hsuf, hmid]
            simp
          · intro o2 ho2 hcond2
            rcases List.mem_cons.mp ho2 with rfl | ho2
            · right
              rw [hsuf, hmid, txoPositions_append, txoPositions_append]
              apply List.mem_append_left
              apply List.mem_append_right
              simp [txoPositions, txo_to_row]
            · exact hmem o2 ho2 hcond2
      · rw [if_neg hcond] at h
        obtain ⟨⟨suf, hsuf⟩, hmem⟩ := ih l l2 h
        refine ⟨⟨suf, hsuf⟩, ?_⟩
        intro o2 ho2 hcond2
        rcases List.mem_cons.mp ho2 with rfl | ho2
        · exact absurd hcond2 hcond
        · exact hmem o2 ho2 hcond2

theorem outputsFold_noop (tx : Tx) (address txhash : String) (existing : List Nat) :
    ∀ (os : List TxOutput) (l : List TxoRow),
      (∀ o ∈ os, (o.script.is_pay_pubkey_hash && (o.script.pubkey_hash == txhash)) = true →
        o.position ∈ existing) →
      outputsFold tx address txhash existing os l = some l := by
  intro os
  induction os with
  | nil => intro l _; rfl
  | cons o os ih =>
    intro l h
    unfold outputsFold
    by_cases hex : o.position ∈ existing
    · rw [if_pos hex]
      exact ih l (fun o2 ho2 => h o2 (List.mem_cons_of_mem o ho2))
    · rw [if_neg hex]
      by_cases hcond : (o.script.is_pay_pubkey_hash && (o.script.pubkey_hash == txhash)) = true
      · exact absurd (h o (List.mem_cons_self o os) hcond) hex
      · rw [if_neg hcond]
        exact ih l (fun o2 ho2 => h o2 (List.mem_cons_of_mem o ho2))

theorem stepOutputs_idem (tx : Tx) (address txhash : String) (T T2 : List TxoRow)
    (h : stepOutputs tx address txhash T = some T2) :
    stepOutputs tx address txhash T2 = some T2 := by
  unfold stepOutputs at h ⊢
  obtain ⟨⟨suf, hsuf⟩, hmem⟩ := outputsFold_sound tx address txhash _ tx.outputs T T2 h
  apply outputsFold_noop
  intro o ho hcond
  rcases hmem o ho hcond with hex | hpos
  · rw [hsuf, txoPositions_append]
    exact List.mem_append_left _ hex
  · exact hpos

theorem inputsFold_suffix (txid address : String) (lookup : String → Option String)
    (existing : List String) :
    ∀ (il : List TxInput) (l : List TxiRow),
      ∃ suf, inputsFold txid address lookup existing il l = l ++ suf := by
  intro il
  induction il with
  | nil =>
    intro l
    exact ⟨[], by simp [inputsFold]⟩
  | cons i rest ih =>
    intro l
    unfold inputsFold
    by_cases hc : ((!(existing.contains i.txo_ref_id)) &&
        (lookup i.txo_ref_id == some address)) = true
    · rw [if_pos hc]
      obtain ⟨suf, hsuf⟩ := ih (l ++ [{ txid := txid, txoid := i.txo_ref_id, address := address }])
      refine ⟨[{ txid := txid, txoid := i.txo_ref_id, address := address }] ++ suf, ?_⟩
      rw [hsuf]
      simp
    · rw [if_neg hc]
      exact ih l

theorem txiTxoids_append (txid : String) (l1 l2 : List TxiRow) :
    txiTxoids txid (l1 ++ l2) = txiTxoids txid l1 ++ txiTxoids txid l2 := by
  simp [txiTxoids, List.filter_append]

theorem inputsFold_covers (txid address : String) (lookup : String → Option String)
    (existing : List String) :
    ∀ (il : List TxInput) (l : List TxiRow),
      (∀ x ∈ existing, x ∈ txiTxoids txid l) →
      ∀ i ∈ il, lookup i.txo_ref_id = some address →
        i.txo_ref_id ∈ txiTxoids txid (inputsFold txid address lookup existing il l) := by
  intro il
  induction il with
  | nil =>
    intro l _ i hi
    exact absurd hi (List.not_mem_nil i)
  | cons j rest ih =>
    intro l hex i hi hlook
    unfold inputsFold
    by_cases hc : ((!(existing.contains j.txo_ref_id)) &&
        (lookup j.txo_ref_id == some address)) = true
    · rw [if_pos hc]
      rcases List.mem_cons.mp hi with rfl | hi2
      · have hmem : i.txo_ref_id ∈
            txiTxoids txid (l ++ [{ txid := txid, txoid := i.txo_ref_id, address := address }]) := by
          rw [txiTxoids_append]
          apply List.mem_append_right
          simp [txiTxoids]
        obtain ⟨suf, hsuf⟩ := inputsFold_suffix txid address lookup existing rest
          (l ++ [{ txid := txid, txoid := i.txo_ref_id, address := address }])
        rw [hsuf, txiTxoids_append]
        exact List.mem_append_left _ hmem
      · have hex2 : ∀ x ∈ existing,
            x ∈ txiTxoids txid (l ++ [{ txid := txid, txoid := j.txo_ref_id, address := address }]) := by
          intro x hx
          rw [txiTxoids_append]
          exact List.mem_append_left _ (hex x hx)
        exact ih (l ++ [{ txid := txid, txoid := j.txo_ref_id, address := address }]) hex2 i hi2 hlook
    · rw [if_neg hc]
      rcases List.mem_cons.mp hi with rfl | hi2
      · have hbeq : (lookup i.txo_ref_id == some address) = true := by
          rw [hlook]
          simp
        have hcont : existing.contains i.txo_ref_id = true := by
          by_contra hnc
          apply hc
          rw [Bool.and_eq_true, Bool.not_eq_true']
          exact ⟨Bool.not_eq_true _ ▸ (Bool.eq_false_iff.mpr hnc), hbeq⟩
        have hmem0 : i.txo_ref_id ∈ existing := by simpa using hcont
        obtain ⟨suf, hsuf⟩ := inputsFold_suffix txid address lookup existing rest l
        rw [hsuf, txiTxoids_append]
        exact List.mem_append_left _ (hex _ hmem0)
      · exact ih l hex i hi2 hlook

theorem inputsFold_noop (txid address : String) (lookup : String → Option String)
    (existing : List String) :
    ∀ (il : List TxInput) (l : List TxiRow),
      (∀ i ∈ il, lookup i.txo_ref_id = some address → i.txo_ref_id ∈ existing) →
      inputsFold txid address lookup existing il l = l := by
  intro il
  induction il with
  | nil => intro l _; rfl
  | cons i rest ih =>
    intro l h
    unfold inputsFold
    have hcfalse : ((!(existing.contains i.txo_ref_id)) &&
        (lookup i.txo_ref_id == some address)) = false := by
      by_cases hlook : lookup i.txo_ref_id = some address
      · have hcont : existing.contains i.txo_ref_id = true := by
          simpa using h i (List.mem_cons_self i rest) hlook
        rw [hcont]
        rfl
      · have hbeq : (lookup i.txo_ref_id == some address) = false := by
          simpa using hlook
        rw [hbeq, Bool.and_false]
    simp only [hcfalse, Bool.false_eq_true, if_false]
    exact ih l (fun j hj => h j (List.mem_cons_of_mem i hj))

theorem stepInputs_idem (tx : Tx) (address : String) (T : List TxoRow) (L : List TxiRow) :
    stepInputs tx address T (stepInputs tx address T L) = stepInputs tx address T L := by
  unfold stepInputs
  apply inputsFold_noop
  intro i hi hlook
  exact inputsFold_covers tx.id address (txoidLookup tx T) (txiTxoids tx.id L) tx.inputs L
    (fun x hx => hx) i hi hlook

theorem db_set_address_history_idem (p : List AddressRow) (a h : String) :
    db_set_address_history (db_set_address_history p a h) a h =
      db_set_address_history p a h := by
  unfold db_set_address_history
  rw [List.map_map]
  apply List.map_congr_left
  intro r _
  by_cases hr : r.address = a
  · simp [hr]
  · simp [hr]

/-! ## C2 -/

def csScript : Script :=
  { is_pay_pubkey_hash := true, is_pay_script_hash := false,
    pubkey_hash := "h160", source := "p2pkh" }

def csTx : Tx :=
  { id := "aa", raw := "rawtx",
    outputs := [{ position := 0, amount := 1000, script := csScript }], inputs := [] }

def csRow : AddressRow :=
  { address := "adx", account := "acct", chain := 0, position := 0,
    pubkey := ⟨[0, 0]⟩, history := none, used_times := 0 }

def csState0 : DBState := { tx := [], txo := [], txi := [], pubkey_address := [csRow] }

/-- Database state after ingesting csTx for address "adx" with save_tx =
"insert", height 5, history "x:5:". -/
def csState1 : DBState :=
  { tx := [{ txid := "aa", raw := "rawtx", height := 5, is_verified := true }],
    txo := [{ txid := "aa", txoid := "aa:0", address := "adx", position := 0,
              amount := 1000, script := "p2pkh", is_reserved := false }],
    txi := [],
    pubkey_address := [{ address := "adx", account := "acct", chain := 0, position := 0,
                         pubkey := ⟨[0, 0]⟩, history := some "x:5:", used_times := 1 }] }

/-- C2 counterexample: re-invoking save_transaction_io with exactly the same
arguments including save_tx = "insert" does not succeed: the unconditional
INSERT INTO tx hits the txid primary key and the whole interaction fails
(rolls back), because only the txo and txi inserts are guarded by existence
checks. -/
theorem c2_counterexample :
    save_transaction_io "insert" csTx 5 true "adx" "h160" "x:5:" csState0 = some csState1 ∧
    save_transaction_io "insert" csTx 5 true "adx" "h160" "x:5:" csState1 = none := by
  decide

/-- C2 amended: for every transaction and address, re-invoking
save_transaction_io with exactly the same arguments succeeds and leaves the
database unchanged provided save_tx is not "insert" (the "update" and
skip modes); with save_tx = "insert" the second call fails on the tx primary
key instead. -/
theorem c2_idempotent_unless_insert (save_tx : String) (tx : Tx) (height : Int)
    (is_verified : Bool) (address txhash history : String) (s s1 : DBState)
    (hmode : save_tx ≠ "insert")
    (h1 : save_transaction_io save_tx tx height is_verified address txhash history s = some s1) :
    save_transaction_io save_tx tx height is_verified address txhash history s1 = some s1 := by
  unfold save_transaction_io at h1 ⊢
  cases hA : stepSaveTx save_tx tx height is_verified s.tx with
  | none =>
    rw [hA] at h1
    exact absurd h1 (by simp)
  | some txT =>
    rw [hA] at h1
    cases hB : stepOutputs tx address txhash s.txo with
    | none =>
      rw [hB] at h1
      exact absurd h1 (by simp)
    | some txoT =>
      rw [hB] at h1
      injection h1 with h1
      subst h1
      dsimp only
      rw [stepSaveTx_idem save_tx tx height is_verified s.tx txT hmode hA]
      rw [stepOutputs_idem tx address txhash s.txo txoT hB]
      dsimp only
      rw [stepInputs_idem tx address txoT s.txi]
      rw [db_set_address_history_idem s.pubkey_address address history]

/-- Database state after ingesting csTx for address "adx" with save_tx =
"update" from csState0 (the tx table stays empty: the UPDATE matches no row). -/
def c2s1 : DBState :=
  { tx := [],
    txo := [{ txid := "aa", txoid := "aa:0", address := "adx", position := 0,
              amount := 1000, script := "p2pkh", is_reserved := false }],
    txi := [],
    pubkey_address := [{ address := "adx", account := "acct", chain := 0, position := 0,
                         pubkey := ⟨[0, 0]⟩, history := some "x:5:", used_times := 1 }] }

/-- Witness for the amended C2 statement with save_tx = "update". -/
theorem c2_idempotent_unless_insert_witness :
    save_transaction_io "update" csTx 5 true "adx" "h160" "x:5:" c2s1 = some c2s1 :=
  c2_idempotent_unless_insert "update" csTx 5 true "adx" "h160" "x:5:" csState0 c2s1
    (by decide) (by decide)
